import Mathlib

/-!
Verification of the telemetry-agent and view code of the nodejs-dashboard
repository. The agent core (dashboard-agent.js, config.js,
metrics-provider.js) is absent from the available sources — only its test
suite (test/lib/dashboard-agent.spec.js) and callers are present — so those
components are modelled from the specification, as marked on each
definition. The environment-details view code (lib/views/env-details-view.js
and the two unnamed view files) is present and translated directly.
-/

/-! ## EventLoopMonitor -/

/-- Modelled from the spec: the EventLoopMonitor's mutable state — the most
recent measured delay and the running maximum since the last external read.
The monitor code (part of dashboard-agent.js) is not among the available
sources; its behaviour is pinned by spec section 4.1 and the test at
test/lib/dashboard-agent.spec.js lines 175-195. -/
structure EventLoopState where
  delay : Nat
  high : Nat
  deriving Repr, DecidableEq

/-- One event-loop reading as returned to the collector. -/
structure EventLoopReading where
  delay : Nat
  high : Nat
  deriving Repr, DecidableEq

/-- Modelled from the spec: recording one measured delay (the agent's
internal delay callback) stores it as the current delay and folds it into
the running high-water mark. -/
def delayed (s : EventLoopState) (d : Nat) : EventLoopState :=
  { delay := d, high := max s.high d }

/-- Modelled from the spec: readAndReset returns the current delay together
with the accumulated high, then resets high to 0 (the delay itself is kept). -/
def readAndReset (s : EventLoopState) : EventLoopReading × EventLoopState :=
  ({ delay := s.delay, high := s.high }, { delay := s.delay, high := 0 })

/-! ## StatsCollector -/

/-- Memory reading, as produced by the process memory utility. -/
structure MemReading where
  systemTotal : Nat
  rss : Nat
  heapTotal : Nat
  heapUsed : Nat
  deriving Repr, DecidableEq

/-- One metric sample: timestamp, event-loop reading, memory, and CPU
utilization. -/
structure MetricSample where
  timestamp : Nat
  eventLoop : EventLoopReading
  mem : MemReading
  cpu : Nat
  deriving Repr, DecidableEq

/-- Modelled from the spec: the StatsCollector (_getStats in
dashboard-agent.js, absent from the sources). It reads memory synchronously,
performs readAndReset on the event-loop monitor, and combines both with the
asynchronous CPU result: on CPU failure the invocation's result is the error
and no sample; on success it is a full sample stamped at collection time.
Returns the collector result together with the monitor state after the
read-reset. -/
def collectStats (el : EventLoopState) (mem : MemReading)
    (cpu : Except String Nat) (now : Nat) :
    Except String MetricSample × EventLoopState :=
  let r := readAndReset el
  match cpu with
  | .error e => (.error e, r.2)
  | .ok u => (.ok { timestamp := now, eventLoop := r.1, mem := mem, cpu := u }, r.2)

/-! ## AgentConfig resolution -/

/-- Constructor options: each field optional. -/
structure AgentOptions where
  port : Option Nat := none
  refreshInterval : Option Nat := none
  blockedThreshold : Option Nat := none
  deriving Repr, DecidableEq

/-- Environment-variable equivalents: each possibly unset. -/
structure EnvOverrides where
  port : Option Nat := none
  refreshInterval : Option Nat := none
  blockedThreshold : Option Nat := none
  deriving Repr, DecidableEq

/-- The resolved agent configuration. -/
structure AgentConfig where
  port : Nat
  refreshInterval : Nat
  blockedThreshold : Nat
  deriving Repr, DecidableEq

/-- Modelled from the spec: per-field precedence resolution — explicit
constructor option, else environment value, else built-in default
(config.js and the resolution code in dashboard-agent.js are absent from
the sources; spec sections 3 and 6 give the precedence rule). -/
def resolveField (opt env : Option Nat) (dflt : Nat) : Nat :=
  match opt with
  | some v => v
  | none =>
    match env with
    | some w => w
    | none => dflt

/-- Modelled from the spec: AgentConfig built once at construction by
applying the precedence rule to every field; the built-in defaults are a
parameter since the spec does not fix their numeric values. -/
def resolveConfig (opts : AgentOptions) (env : EnvOverrides)
    (dflt : AgentConfig) : AgentConfig :=
  { port := resolveField opts.port env.port dflt.port
    refreshInterval :=
      resolveField opts.refreshInterval env.refreshInterval dflt.refreshInterval
    blockedThreshold :=
      resolveField opts.blockedThreshold env.blockedThreshold dflt.blockedThreshold }

/-! ## TelemetryAgent as a cooperative state machine -/

/-- Modelled from the spec: the observable agent state. `outstanding` counts
in-flight asynchronous CPU reads (the spec's busy flag, kept as a count so
that "at most one outstanding" is a provable invariant rather than true by
type), `alive` is the liveness flag cleared by destroy, `published` the
samples emitted so far, `errors` those surfaced to error observers. -/
structure AgentState where
  el : EventLoopState
  outstanding : Nat
  alive : Bool
  published : List MetricSample
  errors : List String
  deriving Repr, DecidableEq

/-- The cooperative-scheduling events acting on the agent: a timer tick
(which fires a CPU read and returns), a delay recording by the monitor,
completion of an in-flight CPU read carrying its result plus the memory
reading and clock value at completion, and destroy. -/
inductive AgentEvent where
  | tick
  | record (d : Nat)
  | cpuComplete (res : Except String Nat) (mem : MemReading) (now : Nat)
  | destroy
  deriving Repr

/-- Modelled from the spec: one step of the agent.
Tick: only when alive and with no read outstanding does it fire a new read;
otherwise the tick is skipped entirely (no queuing). Record: folds a delay
into the monitor while alive. CpuComplete: clears the outstanding read; if
the agent was destroyed meanwhile the result is discarded, else an error is
surfaced to error observers (nothing published) and a success is collected
into a sample and published. Destroy: clears the liveness flag and stops the
timer; it does not cancel an in-flight read, whose completion is then a
no-op. -/
def agentStep (s : AgentState) (e : AgentEvent) : AgentState :=
  match e with
  | .tick =>
    if s.alive ∧ s.outstanding = 0 then { s with outstanding := 1 } else s
  | .record d =>
    if s.alive then { s with el := delayed s.el d } else s
  | .cpuComplete res mem now =>
    if s.outstanding = 0 then s
    else if s.alive then
      match collectStats s.el mem res now with
      | (.error e, el2) =>
        { s with outstanding := s.outstanding - 1, el := el2
                 errors := s.errors ++ [e] }
      | (.ok m, el2) =>
        { s with outstanding := s.outstanding - 1, el := el2
                 published := s.published ++ [m] }
    else { s with outstanding := s.outstanding - 1 }
  | .destroy => { s with alive := false }

/-- A concrete all-zero memory reading, used to instantiate theorems. -/
def memZero : MemReading :=
  { systemTotal := 0, rss := 0, heapTotal := 0, heapUsed := 0 }

/-- The initial agent state right after construction. -/
def agentInit : AgentState :=
  { el := { delay := 0, high := 0 }, outstanding := 0, alive := true
    published := [], errors := [] }

/-- Running the agent over a list of events. -/
def agentRun (s : AgentState) (es : List AgentEvent) : AgentState :=
  es.foldl agentStep s

/-! ## MetricsProvider rolling window -/

/-- Modelled from the spec: the viewer-side RollingWindow — a fixed-capacity
insertion-ordered sequence of samples, oldest first (metrics-provider.js is
absent from the sources; spec sections 3 and 4.5 describe the window). -/
structure RollingWindow where
  capacity : Nat
  samples : List MetricSample
  deriving Repr, DecidableEq

/-- A freshly constructed window of the given capacity. -/
def emptyWindow (c : Nat) : RollingWindow := { capacity := c, samples := [] }

/-- Modelled from the spec: on receipt of a sample the provider appends it
to the window, evicting the oldest entry when the capacity would be
exceeded. -/
def RollingWindow.append (w : RollingWindow) (m : MetricSample) : RollingWindow :=
  let s := w.samples ++ [m]
  { w with samples := if w.capacity < s.length then s.tail else s }

/-- Modelled from the spec: getMetrics n returns the most recent n samples
of the window, ordered oldest-to-newest, without changing the window; n
beyond the stored count yields the whole window and n = 0 or an empty
window yields the empty sequence. -/
def getMetrics (w : RollingWindow) (n : Nat) : List MetricSample :=
  w.samples.drop (w.samples.length - n)

/-- A concrete sample used to instantiate theorems. -/
def mkSample (t : Nat) : MetricSample :=
  { timestamp := t, eventLoop := { delay := 0, high := 0 }, mem := memZero
    cpu := 0 }

/-! ## Environment-details views

The code below is translated directly from the available sources:
lib/views/env-details-view.js and the two unnamed view files (the Dashboard
module and the PlatformDetailsView module). The environment map is embedded
as an ordered association list, and a JS test of an escaped, case-insensitive
regexp literal against a string is embedded as a case-insensitive substring
test. -/

/-- One label/data entry built from the environment map. -/
structure EnvEntry where
  label : String
  data : String
  deriving Repr, DecidableEq

/-- Case-insensitive character comparison, modelling the regexp i flag. -/
def ciCharEq (a b : Char) : Bool := a.toLower == b.toLower

/-- Whether the needle occurs at the start of the haystack,
case-insensitively. -/
def ciStartsWith : List Char → List Char → Bool
  | [], _ => true
  | _ :: _, [] => false
  | a :: as, b :: bs => ciCharEq a b && ciStartsWith as bs

/-- Whether the needle occurs anywhere in the haystack, case-insensitively. -/
def ciContains : List Char → List Char → Bool
  | needle, [] => needle.isEmpty
  | needle, c :: rest => ciStartsWith needle (c :: rest) || ciContains needle rest

/-- Model of `new RegExp(escapeRegExp f, "i").test v`: the escaped pattern
matches the filter text literally, so the test is a case-insensitive
substring search. -/
def regexTestCI (f v : String) : Bool := ciContains f.data v.data

/-- Builds the label/data entry for one environment pair, as the mapping
callback shared by all three source functions does. -/
def toEnvEntry (kv : String × String) : EnvEntry :=
  { label := kv.1, data := kv.2 }

namespace EnvDetailsView

/-- Translation of EnvDetailsView.prototype.getDetails
(lib/views/env-details-view.js lines 38-57): map the environment to
label/data entries, then keep those entries for which every filter is empty
or matches the label or the data as an escaped case-insensitive pattern. -/
def getDetails (env : List (String × String))
    (filters : Option (List String)) : List EnvEntry :=
  let envValues := env.map toEnvEntry
  envValues.filter (fun details =>
    (filters.getD []).all (fun filter =>
      if filter.isEmpty then true
      else filter.isEmpty || regexTestCI filter details.label
        || regexTestCI filter details.data))

end EnvDetailsView

namespace Dashboard

/-- Translation of the Dashboard module's getEnvDetails (first unnamed view
file, lines 175-193): identical filtering of the mapped environment. -/
def getEnvDetails (env : List (String × String))
    (filters : Option (List String)) : List EnvEntry :=
  (env.map toEnvEntry).filter (fun details =>
    (filters.getD []).all (fun filter =>
      if filter.isEmpty then true
      else filter.isEmpty || regexTestCI filter details.label
        || regexTestCI filter details.data))

end Dashboard

namespace PlatformDetailsView

/-- Translation of the PlatformDetailsView module's getEnvDetails (second
unnamed view file, lines 130-148): identical filtering of the mapped
environment. -/
def getEnvDetails (env : List (String × String))
    (filters : Option (List String)) : List EnvEntry :=
  (env.map toEnvEntry).filter (fun details =>
    (filters.getD []).all (fun filter =>
      if filter.isEmpty then true
      else filter.isEmpty || regexTestCI filter details.label
        || regexTestCI filter details.data))

end PlatformDetailsView

/-- The filter-selection predicate the claim describes: every filter of the
list is empty or matches the entry's label or data case-insensitively as an
escaped literal. -/
def claimSelects (filters : Option (List String)) (d : EnvEntry) : Bool :=
  (filters.getD []).all (fun f =>
    f.isEmpty || regexTestCI f d.label || regexTestCI f d.data)

/-! ## Box-content formatting

Both the PlatformDetailsView module (second unnamed view file, lines
72-119) and EnvDetailsView._getBoxContent (lib/views/env-details-view.js
lines 59-104) format a list of label/data entries with an inner
applyHighlights closure whose text is identical in the two sources; it is
therefore embedded once and used by both translations. Literal braces of
the blessed markup are written escaped. -/

/-- Model of the /\S/ test: the string has a non-whitespace character. -/
def hasNonWS (s : String) : Bool := s.data.any (fun c => !c.isWhitespace)

/-- The original characters matched at the head of s by the first escaped
alternative that matches case-insensitively, if any — JS alternation
matching at one position tries the alternatives in order. -/
def tryAlts (alts : List (List Char)) (s : List Char) : Option (List Char) :=
  match alts with
  | [] => none
  | a :: rest =>
    if ciStartsWith a s then some (s.take a.length) else tryAlts rest s

/-- Splitting s by the case-insensitive alternation: returns the parts
between matches together with the matched originals in order, modelling
value.split(pattern) and the successive exec calls of the g-flagged pattern
in the source; cur accumulates the current part reversed. The alternatives
come from nonblank filters and are therefore nonempty. -/
def scanSplit (alts : List (List Char)) (cur : List Char) (s : List Char) :
    List (List Char) × List (List Char) :=
  match s with
  | [] => ([cur.reverse], [])
  | c :: rest =>
    match tryAlts alts (c :: rest) with
    | some m =>
      let res := scanSplit alts [] (rest.drop (m.length - 1))
      (cur.reverse :: res.1, m :: res.2)
    | none => scanSplit alts (c :: cur) rest
termination_by s.length
decreasing_by
  · simp only [List.length_drop, List.length_cons]
    omega
  · simp only [List.length_cons]
    omega

/-- lodash repeat under JS number semantics: a NaN count (none) coerces to
zero and any count below one yields the empty string. -/
def lodashRepeat (s : String) (n : Option Int) : String :=
  match n with
  | none => ""
  | some k => if k < 1 then "" else String.join (List.replicate k.toNat s)

/-- lodash trimEnd with the newline character set: strips trailing
newlines. -/
def trimEndNL (s : String) : String :=
  String.mk ((s.data.reverse.dropWhile (fun c => c == '\n')).reverse)

/-- The reduce over the split parts in the source, where the k-th step
consumes the k-th match returned by the successive exec calls. -/
def joinHighlighted (normalAttributes : String) (first : List Char)
    (rest : List (List Char)) (ms : List (List Char)) : String :=
  (List.zip ms rest).foldl
    (fun prev pm =>
      prev ++ "\x7binverse\x7d" ++ String.mk pm.1 ++ "\x7b/\x7d"
        ++ normalAttributes ++ String.mk pm.2)
    (String.mk first)

/-- Translation of the applyHighlights closure shared verbatim by both
source files: absent filters prepend the attributes only; otherwise the
nonblank filters form an escaped, case-insensitive, global alternation;
an empty alternation (the empty pattern) splits the value into single
characters with every exec call returning the empty match, and JS reduce
of an empty split without a seed yields undefined, which string
concatenation renders as "undefined". -/
def applyHighlights (filters : Option (List String))
    (value normalAttributes : String) : String :=
  match filters with
  | none => normalAttributes ++ value
  | some fs =>
    let nonblank := fs.filter hasNonWS
    if nonblank.isEmpty then
      match value.data.map (fun c => String.mk [c]) with
      | [] => normalAttributes ++ "undefined"
      | p :: ps =>
        normalAttributes ++ ps.foldl (fun prev curr =>
          prev ++ "\x7binverse\x7d" ++ "" ++ "\x7b/\x7d"
            ++ normalAttributes ++ curr) p
    else
      match scanSplit (nonblank.map String.data) [] value.data with
      | ([], _) => normalAttributes ++ "undefined"
      | (p :: ps, ms) => normalAttributes ++ joinHighlighted normalAttributes p ps ms

namespace PlatformDetailsView

/-- Translation of the PlatformDetailsView module's getBoxContent (second
unnamed view file, lines 72-119): longestLabel is the numeric reduce-max of
the label lengths, and each row separates the highlighted label from its
highlighted data by longestLabel - label.length + 1 spaces. -/
def getBoxContent (data : List EnvEntry)
    (filters : Option (List String)) : String :=
  let longestLabel : Nat :=
    data.foldl (fun prev detail => max prev detail.label.length) 0
  trimEndNL (data.foldl (fun prev details =>
    prev ++ applyHighlights filters details.label "\x7bcyan-fg\x7d\x7bbold\x7d"
      ++ "\x7b/\x7d"
      ++ lodashRepeat " " (some ((longestLabel : Int) - details.label.length + 1))
      ++ applyHighlights filters details.data "\x7bgreen-fg\x7d"
      ++ "\x7b/\x7d\n") "")

end PlatformDetailsView

namespace EnvDetailsView

/-- lodash maxBy over the path label.length: returns the entry whose label
is longest (the first such on ties), or undefined (none) for an empty
list. -/
def maxByLabelLength (data : List EnvEntry) : Option EnvEntry :=
  match data with
  | [] => none
  | d :: ds =>
    some (ds.foldl
      (fun best x => if best.label.length < x.label.length then x else best) d)

/-- JS number coercion of the maxBy result inside the arithmetic of the
source: a plain object, and likewise undefined, coerces to NaN. -/
def entryToNumber (_ : Option EnvEntry) : Option Int := none

/-- JS arithmetic longestLabel - label.length + 1 under NaN propagation. -/
def jsPadCount (a : Option Int) (b : Nat) : Option Int :=
  a.map (fun k => k - b + 1)

/-- Translation of EnvDetailsView.prototype._getBoxContent
(lib/views/env-details-view.js lines 59-104): identical to the
PlatformDetailsView formatter except that longestLabel is the maxBy result
— an entry object, not a length — so the repeat count of the separating
spaces is NaN. -/
def getBoxContent (data : List EnvEntry)
    (filters : Option (List String)) : String :=
  let longestLabel := maxByLabelLength data
  trimEndNL (data.foldl (fun prev details =>
    prev ++ applyHighlights filters details.label "\x7bcyan-fg\x7d\x7bbold\x7d"
      ++ "\x7b/\x7d"
      ++ lodashRepeat " " (jsPadCount (entryToNumber longestLabel) details.label.length)
      ++ applyHighlights filters details.data "\x7bgreen-fg\x7d"
      ++ "\x7b/\x7d\n") "")

end EnvDetailsView

/-- The formatting skeleton the two sources share, abstracted over the
separator placed between a row's label and data. -/
def formatContent (pad : EnvEntry → String) (data : List EnvEntry)
    (filters : Option (List String)) : String :=
  trimEndNL (data.foldl (fun prev details =>
    prev ++ applyHighlights filters details.label "\x7bcyan-fg\x7d\x7bbold\x7d"
      ++ "\x7b/\x7d"
      ++ pad details
      ++ applyHighlights filters details.data "\x7bgreen-fg\x7d"
      ++ "\x7b/\x7d\n") "")

/-- The numeric longest-label length used by the PlatformDetailsView
formatter. -/
def longestLabelLength (data : List EnvEntry) : Nat :=
  data.foldl (fun prev detail => max prev detail.label.length) 0

/-! ## Lemmas and claim theorems -/

/-! ## Helper lemmas about the agent -/

/-- Each step keeps the outstanding-read count at most one. -/
lemma agentStep_outstanding_le (s : AgentState) (e : AgentEvent)
    (h : s.outstanding ≤ 1) : (agentStep s e).outstanding ≤ 1 := by
  cases e with
  | tick =>
    simp only [agentStep]
    split <;> simp [h]
  | record d =>
    simp only [agentStep]
    split <;> simp [h]
  | cpuComplete res mem now =>
    simp only [agentStep]
    split
    · exact h
    · split
      · rcases hc : collectStats s.el mem res now with ⟨r, el2⟩
        cases r <;> simp [hc] <;> omega
      · show s.outstanding - 1 ≤ 1
        omega
  | destroy =>
    simpa [agentStep] using h

/-- Running from a state with at most one outstanding read preserves that
bound. -/
lemma agentRun_outstanding_le (s : AgentState) (es : List AgentEvent)
    (h : s.outstanding ≤ 1) : (agentRun s es).outstanding ≤ 1 := by
  induction es generalizing s with
  | nil => simpa [agentRun] using h
  | cons e es ih =>
    simpa [agentRun] using ih _ (agentStep_outstanding_le s e h)

/-- No event revives a destroyed agent. -/
lemma agentStep_alive (s : AgentState) (e : AgentEvent)
    (h : s.alive = false) : (agentStep s e).alive = false := by
  cases e with
  | tick => simp only [agentStep]; split <;> simp_all
  | record d => simp only [agentStep]; split <;> simp_all
  | cpuComplete res mem now =>
    simp only [agentStep, h]
    split
    · exact h
    · simp
  | destroy => rfl

/-- A destroyed agent publishes nothing further in one step. -/
lemma agentStep_published (s : AgentState) (e : AgentEvent)
    (h : s.alive = false) : (agentStep s e).published = s.published := by
  cases e with
  | tick => simp only [agentStep]; split <;> simp_all
  | record d => simp only [agentStep]; split <;> simp_all
  | cpuComplete res mem now =>
    simp only [agentStep, h]
    split
    · rfl
    · simp
  | destroy => rfl

/-- A destroyed agent stays destroyed and publishes nothing more over any
run. -/
lemma agentRun_dead (s : AgentState) (es : List AgentEvent)
    (h : s.alive = false) :
    (agentRun s es).alive = false ∧ (agentRun s es).published = s.published := by
  induction es generalizing s with
  | nil => simp [agentRun, h]
  | cons e es ih =>
    have h1 := agentStep_alive s e h
    have h2 := agentStep_published s e h
    have := ih (agentStep s e) h1
    simpa [agentRun, h2] using this

/-! ## Claim theorems: C1 to C4, C7, C8 -/

/-- C1: starting from any just-read monitor state (high reset to 0),
recording a sequence of delays and then calling readAndReset yields as
`high` the maximum of the delays recorded since that previous read (0 when
none were recorded), as `delay` the most recently recorded one (unchanged
when none were recorded), and leaves the accumulated high reset to 0.
Concretely, recording 150 then 100 reads as delay 100, high 150. -/
theorem readAndReset_spec (s : EventLoopState) (h : s.high = 0)
    (ds : List Nat) :
    (readAndReset (ds.foldl delayed s)).1.high = ds.foldl max 0 ∧
    (readAndReset (ds.foldl delayed s)).1.delay = ds.foldl (fun _ d => d) s.delay ∧
    (readAndReset (ds.foldl delayed s)).2.high = 0 := by
  refine ⟨?_, ?_, rfl⟩
  · have key : ∀ (l : List Nat) (t : EventLoopState),
        (l.foldl delayed t).high = l.foldl max t.high := by
      intro l
      induction l with
      | nil => intro t; rfl
      | cons a l ih =>
        intro t
        simp [delayed, readAndReset, ih]
    simp [readAndReset, key, h]
  · have key : ∀ (l : List Nat) (t : EventLoopState),
        (l.foldl delayed t).delay = l.foldl (fun _ d => d) t.delay := by
      intro l
      induction l with
      | nil => intro t; rfl
      | cons a l ih =>
        intro t
        simp [delayed, ih]
    simp [readAndReset, key]

/-- Witness for C1: the concrete run of the spec — record delay 150, then
delay 100, then read: the reading is delay 100 with high 150, and high is
reset afterwards. -/
theorem readAndReset_spec_witness :
    (readAndReset (List.foldl delayed { delay := 0, high := 0 } [150, 100])).1
        = { delay := 100, high := 150 } ∧
    (readAndReset (List.foldl delayed { delay := 0, high := 0 } [150, 100])).2.high
        = 0 := by
  have h := readAndReset_spec { delay := 0, high := 0 } rfl [150, 100]
  refine ⟨?_, h.2.2⟩
  have h1 : (readAndReset (List.foldl delayed { delay := 0, high := 0 }
      [150, 100])).1.high = 150 := by
    rw [h.1]; decide
  have h2 : (readAndReset (List.foldl delayed { delay := 0, high := 0 }
      [150, 100])).1.delay = 100 := by
    rw [h.2.1]; decide
  cases hr : (readAndReset (List.foldl delayed { delay := 0, high := 0 }
      [150, 100])).1
  simp_all

/-- C2: when the asynchronous CPU read fails, the collector's result for
that invocation is exactly the error and no sample, and the agent — alive
with that one read outstanding — publishes nothing for the tick, surfaces
the error to its error observers, and the next tick proceeds normally
(it fires a fresh read). -/
theorem cpuFailure_spec (s : AgentState) (e : String) (mem : MemReading)
    (now : Nat) (h1 : s.alive = true) (h2 : s.outstanding = 1) :
    (collectStats s.el mem (.error e) now).1 = .error e ∧
    (agentStep s (.cpuComplete (.error e) mem now)).published = s.published ∧
    (agentStep s (.cpuComplete (.error e) mem now)).errors = s.errors ++ [e] ∧
    agentStep (agentStep s (.cpuComplete (.error e) mem now)) .tick
      = { (agentStep s (.cpuComplete (.error e) mem now)) with outstanding := 1 } := by
  refine ⟨rfl, ?_, ?_, ?_⟩ <;>
    simp [agentStep, collectStats, readAndReset, h1, h2]

/-- Witness for C2: from the freshly constructed agent with one read fired,
a failing CPU read publishes nothing, records the error, and the following
tick fires a fresh read. -/
theorem cpuFailure_spec_witness :
    ((agentRun agentInit [.tick]).alive = true ∧
      (agentRun agentInit [.tick]).outstanding = 1) ∧
    (agentStep (agentRun agentInit [.tick])
        (.cpuComplete (.error "bad error") memZero 0)).published = [] := by
  refine ⟨⟨rfl, rfl⟩, ?_⟩
  have h := cpuFailure_spec (agentRun agentInit [.tick]) "bad error" memZero 0 rfl rfl
  rw [h.2.1]
  rfl

/-- C3: each configuration field resolves to the explicit constructor option
when present, else to the environment value when present, else to the
built-in default; in particular, with environment port P+1 and explicit
option port P the agent's resolved port is P, not P+1. -/
theorem config_precedence (opts : AgentOptions) (env : EnvOverrides)
    (dflt : AgentConfig) :
    ((resolveConfig opts env dflt).port
        = match opts.port with
          | some v => v
          | none => match env.port with
            | some w => w
            | none => dflt.port) ∧
    ((resolveConfig opts env dflt).refreshInterval
        = match opts.refreshInterval with
          | some v => v
          | none => match env.refreshInterval with
            | some w => w
            | none => dflt.refreshInterval) ∧
    ((resolveConfig opts env dflt).blockedThreshold
        = match opts.blockedThreshold with
          | some v => v
          | none => match env.blockedThreshold with
            | some w => w
            | none => dflt.blockedThreshold) ∧
    (∀ P : Nat,
      (resolveConfig { opts with port := some P }
          { env with port := some (P + 1) } dflt).port = P ∧
      (resolveConfig { opts with port := some P }
          { env with port := some (P + 1) } dflt).port ≠ P + 1) := by
  refine ⟨rfl, rfl, rfl, fun P => ⟨rfl, ?_⟩⟩
  simp [resolveConfig, resolveField]

/-- C4: with memory reading systemTotal 20, rss 30, heapTotal 40,
heapUsed 50 and a successful CPU read of 60, the collector produces a full
sample carrying exactly those memory fields, cpu utilization 60, the
readAndReset output of the monitor, and the collection-time timestamp. -/
theorem collect_basic_metrics (el : EventLoopState) (now : Nat) :
    collectStats el
        { systemTotal := 20, rss := 30, heapTotal := 40, heapUsed := 50 }
        (.ok 60) now
      = (.ok { timestamp := now, eventLoop := (readAndReset el).1,
               mem := { systemTotal := 20, rss := 30, heapTotal := 40,
                        heapUsed := 50 },
               cpu := 60 },
         (readAndReset el).2) := by
  rfl

/-- C7: after a destroy, no further samples are ever published — the
published list after any continuation (which may contain scheduled ticks
and the completion of a CPU read that was in flight at destruction, whose
result is discarded) is exactly the list at the moment of destruction — and
no further tick fires: a tick leaves the post-destroy state unchanged. -/
theorem destroy_quiesces (es1 es2 : List AgentEvent) :
    (agentRun agentInit (es1 ++ .destroy :: es2)).published
        = (agentRun agentInit (es1 ++ [.destroy])).published ∧
    agentStep (agentRun agentInit (es1 ++ .destroy :: es2)) .tick
        = agentRun agentInit (es1 ++ .destroy :: es2) := by
  have hsplit : agentRun agentInit (es1 ++ .destroy :: es2)
      = agentRun (agentRun agentInit (es1 ++ [.destroy])) es2 := by
    simp [agentRun, List.foldl_append]
  have hdead : (agentRun agentInit (es1 ++ [.destroy])).alive = false := by
    simp [agentRun, List.foldl_append, agentStep]
  have h := agentRun_dead (agentRun agentInit (es1 ++ [.destroy])) es2 hdead
  constructor
  · rw [hsplit]; exact h.2
  · rw [hsplit]
    have halive := h.1
    simp [agentStep, halive]

/-- C8: in every reachable agent state at most one CPU read is outstanding,
and a tick that fires while a read is outstanding is skipped entirely — the
state is unchanged, nothing is queued. -/
theorem single_outstanding_read (es : List AgentEvent) :
    (agentRun agentInit es).outstanding ≤ 1 ∧
    (∀ s : AgentState, 1 ≤ s.outstanding → agentStep s .tick = s) := by
  constructor
  · exact agentRun_outstanding_le agentInit es (by simp [agentInit])
  · intro s hs
    simp only [agentStep]
    split
    · omega
    · rfl

/-- Witness for C8: after a single tick from the initial state exactly one
read is outstanding, and a second tick from that state changes nothing. -/
theorem single_outstanding_read_witness :
    (agentRun agentInit [.tick]).outstanding ≤ 1 ∧
    (1 ≤ (agentRun agentInit [.tick]).outstanding ∧
      agentStep (agentRun agentInit [.tick]) .tick = agentRun agentInit [.tick]) := by
  have h := single_outstanding_read [.tick]
  exact ⟨h.1, by decide, h.2 (agentRun agentInit [.tick]) (by decide)⟩

/-- Appending preserves the capacity bound on the stored-sample count. -/
lemma append_length_le (w : RollingWindow) (m : MetricSample)
    (h : w.samples.length ≤ w.capacity) :
    (w.append m).samples.length ≤ w.capacity := by
  simp only [RollingWindow.append]
  split <;> simp_all

/-- Appending never changes the configured capacity. -/
lemma append_capacity (w : RollingWindow) (m : MetricSample) :
    (w.append m).capacity = w.capacity := by
  simp [RollingWindow.append]

/-! ## Claim theorems: C5 and C6 -/

/-- C5: however many samples arrive, the window never holds more than its
configured capacity; a sample arriving at capacity evicts the oldest stored
sample first (FIFO), appending the new one at the newest end, and a sample
arriving under capacity is appended without eviction, keeping the window
insertion-ordered. -/
theorem rollingWindow_bounded (c : Nat) (ms : List MetricSample) :
    (ms.foldl RollingWindow.append (emptyWindow c)).samples.length ≤ c ∧
    (∀ w : RollingWindow, ∀ m : MetricSample,
      w.samples.length = w.capacity → w.samples ≠ [] →
      (w.append m).samples = w.samples.tail ++ [m]) ∧
    (∀ w : RollingWindow, ∀ m : MetricSample,
      w.samples.length < w.capacity →
      (w.append m).samples = w.samples ++ [m]) := by
  refine ⟨?_, ?_, ?_⟩
  · have key : ∀ (l : List MetricSample) (w : RollingWindow),
        w.samples.length ≤ w.capacity →
        ((l.foldl RollingWindow.append w).samples.length
          ≤ (l.foldl RollingWindow.append w).capacity) := by
      intro l
      induction l with
      | nil => intro w h; simpa using h
      | cons m l ih =>
        intro w h
        simpa using ih (w.append m) (append_length_le w m h)
    have hcap : ∀ (l : List MetricSample) (w : RollingWindow),
        (l.foldl RollingWindow.append w).capacity = w.capacity := by
      intro l
      induction l with
      | nil => intro w; rfl
      | cons m l ih =>
        intro w
        simp only [List.foldl_cons, ih, append_capacity]
    have h := key ms (emptyWindow c) (by simp [emptyWindow])
    rwa [hcap ms (emptyWindow c)] at h
  · intro w m h1 h2
    simp only [RollingWindow.append]
    rw [if_pos (by simp [h1])]
    exact List.tail_append_of_ne_nil h2
  · intro w m h1
    simp only [RollingWindow.append]
    rw [if_neg (by simp; omega)]

/-- Witness for C5: capacity 2 filled by three samples stays at two entries,
and a full two-entry window receiving a third evicts the oldest. -/
theorem rollingWindow_bounded_witness :
    (List.foldl RollingWindow.append (emptyWindow 2)
        [mkSample 0, mkSample 1, mkSample 2]).samples.length ≤ 2 ∧
    (RollingWindow.append
        { capacity := 2, samples := [mkSample 0, mkSample 1] }
        (mkSample 2)).samples = [mkSample 1, mkSample 2] := by
  have h := rollingWindow_bounded 2 [mkSample 0, mkSample 1, mkSample 2]
  refine ⟨h.1, ?_⟩
  have h2 := h.2.1 { capacity := 2, samples := [mkSample 0, mkSample 1] }
    (mkSample 2) rfl (by simp)
  simpa using h2

/-- C6: getMetrics n returns exactly the most recent n stored samples in
oldest-to-newest order (the reverse of taking n from the newest end); when
n is at least the stored count it returns all stored samples, when n is 0
it returns the empty sequence, and on an empty window it returns the empty
sequence, never an error — and being a pure function of the window it
leaves the window itself untouched. -/
theorem getMetrics_spec (w : RollingWindow) (n : Nat) :
    getMetrics w n = (w.samples.reverse.take n).reverse ∧
    (w.samples.length ≤ n → getMetrics w n = w.samples) ∧
    getMetrics w 0 = [] ∧
    (w.samples = [] → getMetrics w n = []) := by
  refine ⟨?_, ?_, ?_, ?_⟩
  · simpa [List.rtake] using List.rtake_eq_reverse_take_reverse w.samples n
  · intro h
    simp [getMetrics, Nat.sub_eq_zero_of_le h]
  · simp [getMetrics]
  · intro h
    simp [getMetrics, h]

/-- Witness for C6: a window holding one sample serves it whole for n = 5,
and a fresh empty window serves the empty sequence for n = 7. -/
theorem getMetrics_spec_witness :
    getMetrics { capacity := 2, samples := [mkSample 0] } 5 = [mkSample 0] ∧
    getMetrics (emptyWindow 2) 7 = [] := by
  refine ⟨?_, ?_⟩
  · exact (getMetrics_spec { capacity := 2, samples := [mkSample 0] } 5).2.1
      (by simp)
  · exact (getMetrics_spec (emptyWindow 2) 7).2.2.2 rfl

/-- The guarded per-filter test of the source collapses to the plain
disjunction. -/
lemma envFilter_guard (f : String) (a b : Bool) :
    (if f.isEmpty then true else (f.isEmpty || a || b))
      = (f.isEmpty || a || b) := by
  by_cases h : f.isEmpty <;> simp [h]

/-! ## Claim theorem: C9 -/

/-- C9: getEnvDetails returns exactly the environment entries, in
environment order, for which every filter of the list is empty or matches
the entry's label or data case-insensitively as a regexp-escaped literal;
an absent or empty filter list selects every entry; and the three
definitions of the function — EnvDetailsView.getDetails, the Dashboard
module's getEnvDetails, and the PlatformDetailsView module's getEnvDetails
— compute the same result on every input. -/
theorem getEnvDetails_consistent (env : List (String × String))
    (filters : Option (List String)) :
    EnvDetailsView.getDetails env filters
        = (env.map toEnvEntry).filter (claimSelects filters) ∧
    EnvDetailsView.getDetails env none = env.map toEnvEntry ∧
    EnvDetailsView.getDetails env (some []) = env.map toEnvEntry ∧
    Dashboard.getEnvDetails env filters = EnvDetailsView.getDetails env filters ∧
    PlatformDetailsView.getEnvDetails env filters
        = EnvDetailsView.getDetails env filters := by
  refine ⟨?_, ?_, ?_, rfl, rfl⟩
  · simp only [EnvDetailsView.getDetails, envFilter_guard]
    rfl
  · simp [EnvDetailsView.getDetails]
  · simp [EnvDetailsView.getDetails]

/-! ## Claim theorems: C10 -/

/-- C10 counterexample: on the singleton entry with label A and data B and
the empty filter list, the two formatters disagree — so they do not return
the same content string for every non-empty data list and filter list. -/
theorem getBoxContent_counterexample :
    EnvDetailsView.getBoxContent [{ label := "A", data := "B" }] (some [])
      ≠ PlatformDetailsView.getBoxContent [{ label := "A", data := "B" }] (some []) := by
  decide

/-- C10 amended: the two formatters share one skeleton but differ in the
label/data separator — for every data list and filter list,
PlatformDetailsView's getBoxContent separates each label from its value by
longest label length - this label length + 1 spaces, while EnvDetailsView's
version separates them by no spaces at all, because its longestLabel is the
entry object returned by maxBy, whose arithmetic with the label length is
NaN and repeats the space zero times. -/
theorem getBoxContent_padding (data : List EnvEntry)
    (filters : Option (List String)) :
    EnvDetailsView.getBoxContent data filters
        = formatContent (fun _ => "") data filters ∧
    PlatformDetailsView.getBoxContent data filters
        = formatContent
            (fun d => lodashRepeat " "
              (some ((longestLabelLength data : Int) - d.label.length + 1)))
            data filters := by
  constructor
  · simp only [EnvDetailsView.getBoxContent, formatContent,
      EnvDetailsView.entryToNumber, EnvDetailsView.jsPadCount,
      Option.map_none', lodashRepeat]
  · rfl
